import Mathlib

/-!
Verification development for the natsrouter repository (package `natsrouter`,
v2). The definitions below are a shallow embedding of `src/v2/router.go`.
Strings are modelled as Lean `String` / `List Char`; Go maps keyed by rank are
modelled as association lists (every observable use in the source sorts the
keys, so iteration order is irrelevant); Go panics in `Handle` are modelled as
an `Except.error` result carrying the panic message; the `go` statement in
dispatch is modelled by returning the spawned task as a value instead of
executing it, so that a dispatch call's synchronous result is separated from
the handler's own execution.

The radix tree (`tree.go`: `node`, `addRoute`, `getValue`, `countParams`) is
not part of the sources; those operations are modelled from the spec, at token
granularity (see the doc comments marked "Modelled from the spec").
-/

namespace NatsRouter

/-- Decimal digits of a natural number, as characters (`fmt.Sprintf "%d"`). -/
def natDigits (n : Nat) : List Char := (Nat.repr n).data

/-- Embedding of the `reNATSPathToken.ReplaceAllStringFunc` pass of
`fromNatsPath` (src/v2/router.go lines 52-58): every non-overlapping,
left-to-right occurrence of the two-character sequence `.*` is replaced by
`.:pN`, `N` counting occurrences from `i + 1`. -/
def replTok : Nat → List Char → List Char
  | _, [] => []
  | _, [c] => [c]
  | i, a :: b :: rest =>
    if a = '.' ∧ b = '*' then
      '.' :: ':' :: 'p' :: natDigits (i + 1) ++ replTok (i + 1) rest
    else
      a :: replTok i (b :: rest)

/-- Embedding of the `reNATSPathCatchAll.ReplaceAllString(path, "$1.*>")` pass
of `fromNatsPath` (src/v2/router.go lines 46, 50, 59): a path ending in `.>`
has that suffix rewritten to `.*>`; any other path is left unchanged. -/
def replaceCatchAll (cs : List Char) : List Char :=
  match cs.reverse with
  | '>' :: '.' :: pre => pre.reverse ++ ['.', '*', '>']
  | _ => cs

/-- Embedding of `fromNatsPath` (src/v2/router.go lines 52-62): the token pass
runs first with the counter starting at 0, the catch-all pass second. -/
def fromNatsPath (path : String) : String :=
  ⟨replaceCatchAll (replTok 0 path.data)⟩

/-- Splits a subject or translated pattern at every `.` (like Go's
`strings.Split(s, ".")`); always returns at least one (possibly empty) token. -/
def splitDots : List Char → List (List Char)
  | [] => [[]]
  | '.' :: rest => [] :: splitDots rest
  | c :: rest =>
    match splitDots rest with
    | t :: ts => (c :: t) :: ts
    | [] => [[c]]

/-- One token of a translated pattern: a literal token, a parametric token
`:name`, or the trailing catch-all token `*>`. -/
inductive PTok
  | lit (s : List Char)
  | par (name : List Char)
  | catchAll
deriving DecidableEq, Repr

/-- Classifies one translated-pattern token. -/
def tokOf (t : List Char) : PTok :=
  if t = ['*', '>'] then .catchAll
  else
    match t with
    | ':' :: name => .par name
    | _ => .lit t

/-- Token list of a translated pattern. -/
def patToks (translated : List Char) : List PTok :=
  (splitDots translated).map tokOf

/-- Param is a single parameter, consisting of a key and a value
(src/v2/router.go lines 22-26). -/
structure Param where
  key : List Char
  value : List Char
deriving DecidableEq, Repr

/-- Modelled from the spec: `countParams` lives in the radix-tree file
(`tree.go`), which is not among the sources; per spec section 4.2 it returns
the number of parametric plus catch-all tokens in a translated pattern. -/
def countParams (translated : List Char) : Nat :=
  (patToks translated).countP (fun t =>
    match t with
    | .lit _ => false
    | _ => true)

/-- A registered handler: either the plain handler, or the handler wrapped by
`saveMatchedRoutePath` (src/v2/router.go lines 128-141), which appends the
`$matchedRoutePath` parameter before invoking the inner handler. -/
inductive StoredHandle (α : Type)
  | plain (h : α)
  | withMatchedPath (path : List Char) (h : α)
deriving DecidableEq, Repr

/-- Modelled from the spec: the per-rank radix tree (`node` of `tree.go`) is
not among the sources. It is modelled as the list of registered translated
patterns with their handlers; prefix compression is a performance detail with
no observable effect on lookup results, so patterns are kept whole, at token
granularity. -/
abbrev Trie (α : Type) : Type := List (List PTok × StoredHandle α)

/-- Modelled from the spec: `node.addRoute` of the missing `tree.go`, per spec
section 4.2, registers one translated pattern with its handler. Registration
conflicts (duplicate pattern or clashing parameter names, which `addRoute`
fails on) are not exercised by any verified property, so insertion is plain. -/
def addRoute (t : Trie α) (translated : List Char) (h : StoredHandle α) : Trie α :=
  t ++ [(patToks translated, h)]

/-- An in-progress lookup entry: the not-yet-consumed pattern tokens, the
captures accumulated so far (in reverse), and the bound handler. -/
abbrev LookEntry (α : Type) : Type := List PTok × List Param × StoredHandle α

/-- Selects an entry whose next pattern token is the literal `s` and consumes
that token. -/
def statSel (s : List Char) (e : LookEntry α) : Option (LookEntry α) :=
  match e.1 with
  | .lit t :: ps => if t = s then some (ps, e.2.1, e.2.2) else none
  | _ => none

/-- Selects an entry whose next pattern token is parametric, consuming it and
capturing the subject token `s` under the parameter's name. -/
def parSel (s : List Char) (e : LookEntry α) : Option (LookEntry α) :=
  match e.1 with
  | .par n :: ps => some (ps, ⟨n, s⟩ :: e.2.1, e.2.2)
  | _ => none

/-- Completes an entry whose whole remaining pattern is the catch-all token:
the capture is named `>` and its value is the entire remaining subject
including the leading `.` separator. -/
def catchSel (s : List Char) (rest : List (List Char)) (e : LookEntry α) :
    Option (StoredHandle α × List Param) :=
  match e.1 with
  | [.catchAll] =>
    some (e.2.2,
      (Param.mk ['>'] ('.' :: List.intercalate ['.'] (s :: rest)) :: e.2.1).reverse)
  | _ => none

/-- Completes an entry whose pattern tokens are exhausted together with the
subject. -/
def doneSel (e : LookEntry α) : Option (StoredHandle α × List Param) :=
  match e.1 with
  | [] => some (e.2.2, e.2.1.reverse)
  | _ => none

/-- Modelled from the spec: the walking core of `node.getValue` of the missing
`tree.go`, per spec section 4.2. At each subject token the static branch is
attempted first, then the parametric branch (capturing the token), and last a
catch-all child, which captures the entire remaining subject including the
leading `.` separator and terminates the walk. -/
def lookupGo : List (LookEntry α) → List (List Char) →
    Option (StoredHandle α × List Param)
  | entries, [] => entries.findSome? doneSel
  | entries, s :: rest =>
    match lookupGo (entries.filterMap (statSel s)) rest with
    | some r => some r
    | none =>
      match lookupGo (entries.filterMap (parSel s)) rest with
      | some r => some r
      | none => entries.findSome? (catchSel s rest)

/-- Modelled from the spec: `node.getValue` of the missing `tree.go` — matches
a subject against the rank's tree, returning the bound handler and the ordered
captured parameters, or nothing when no registered pattern matches. -/
def lookupTrie (t : Trie α) (subject : String) : Option (StoredHandle α × List Param) :=
  lookupGo (t.map (fun e => (e.1, [], e.2))) (splitDots subject.data)

/-- A pooled parameter buffer: a Go slice of `Param` with its logical length
`len` and its underlying array `store` (the capacity is `store.length`).
Truncating a slice to `[0:0]` resets `len` and leaves `store` untouched. -/
structure ParamsBuf where
  len : Nat
  store : List Param
deriving DecidableEq, Repr

/-- The abstract message collaborator (src/v2/router.go lines 13-16): the only
part of a message the router reads is its subject. -/
structure SubjectMsg where
  subject : String
deriving DecidableEq, Repr

/-- Opaque payload handed through `ServeNATSWithPayload`. -/
abbrev Payload : Type := Nat

/-- Embedding of the `Router` struct (src/v2/router.go lines 77-101). The Go
map from rank to tree root is an association list (every observable use of it
in the source sorts the collected keys, so map iteration order is immaterial);
`sync.Pool` is a free list plus the `poolNewInstalled` flag standing for a
non-nil `New` allocator (the allocator closure reads the router's current
`maxParams` each time it runs); `inited` is the Go field `initialized`;
`panicHandlerSet` records whether the `PanicHandler` callback is non-nil. -/
structure Router (α : Type) where
  trees : List (Int × Trie α) := []
  maxParams : Nat := 0
  poolNewInstalled : Bool := false
  paramsPool : List ParamsBuf := []
  saveMatchedRoutePath : Bool := false
  globalAllowed : String := ""
  rankIndexList : List Int := []
  inited : Bool := false
  panicHandlerSet : Bool := false
deriving DecidableEq, Repr

/-- Embedding of `New` (src/v2/router.go lines 105-110): a fresh router with
an empty rank list, not yet transitioned to serving. -/
def New : Router α :=
  { trees := [], maxParams := 0, poolNewInstalled := false, paramsPool := [],
    saveMatchedRoutePath := false, globalAllowed := "", rankIndexList := [],
    inited := false, panicHandlerSet := false }

/-- Association lookup standing for `r.trees[rank]` (nil when absent). -/
def lookupRank : List (Int × Trie α) → Int → Option (Trie α)
  | [], _ => none
  | e :: rest, rank => if e.1 == rank then some e.2 else lookupRank rest rank

/-- Association update standing for `r.trees[rank] = root`: replaces the
binding for `rank` when present, appends it otherwise. -/
def setRank (rank : Int) (t : Trie α) : List (Int × Trie α) → List (Int × Trie α)
  | [] => [(rank, t)]
  | e :: rest => if e.1 == rank then (rank, t) :: rest else e :: setRank rank t rest

/-- Embedding of `getParams` (src/v2/router.go lines 112-120): checkout from
the pool. A buffer from the free list has its logical length reset to zero,
contents untouched; an empty free list falls through to the `New` allocator
when one is installed (yielding a fresh zeroed buffer whose capacity is the
router's current `maxParams`), and to a nil result otherwise, because the
type assertion on an untyped nil fails. -/
def getParams (r : Router α) : Option ParamsBuf × Router α :=
  match r.paramsPool with
  | b :: rest => (some { b with len := 0 }, { r with paramsPool := rest })
  | [] =>
    if r.poolNewInstalled then
      (some { len := 0, store := List.replicate r.maxParams (Param.mk [] []) }, r)
    else
      (none, r)

/-- Embedding of `putParams` (src/v2/router.go lines 122-126). -/
def putParams (r : Router α) (ps : Option ParamsBuf) : Router α :=
  match ps with
  | some b => { r with paramsPool := b :: r.paramsPool }
  | none => r

/-- Embedding of `allowed` (src/v2/router.go lines 211-261): subject `*` with
requesting rank 0 collects every known rank; subject `*` with a non-zero rank
returns the cached `globalAllowed` string; a concrete subject probes every
rank's tree except the requester's own. A non-empty collection is
insertion-sorted ascending and joined with plain comma-space; an empty
collection yields the empty string. -/
def allowed (r : Router α) (path : String) (reqRank : Int) : String :=
  if path = "*" ∧ reqRank ≠ 0 then r.globalAllowed
  else
    let ranks : List Int :=
      if path = "*" then r.trees.map (·.1)
      else
        (r.trees.filter
          (fun e => e.1 != reqRank && (lookupTrie e.2 path).isSome)).map (·.1)
    if ranks = [] then ""
    else String.intercalate ", " ((ranks.insertionSort (· ≤ ·)).map (fun i => toString i))

/-- Embedding of `getRankList` (src/v2/router.go lines 269-279): on the first
call (`initialized` false) the ranks present in `trees` are appended to the
stored list, the list is sorted ascending and frozen; afterwards the cached
list is returned unchanged. -/
def getRankList (r : Router α) : List Int × Router α :=
  if r.inited then (r.rankIndexList, r)
  else
    let l := (r.rankIndexList ++ r.trees.map (·.1)).insertionSort (· ≤ ·)
    (l, { r with rankIndexList := l, inited := true })

/-- One handler invocation handed to a `go` statement by dispatch. The `rank`
field is an observation recording which rank's tree produced the handler; the
`params` field is `none` exactly when the matched route captured nothing (the
Go code then passes a nil `Params`). The task is returned as a value, not
executed: dispatch's own result never waits on it. -/
structure SpawnedTask (α : Type) where
  rank : Int
  handle : StoredHandle α
  msg : SubjectMsg
  params : Option (List Param)
  payload : Option Payload
deriving DecidableEq, Repr

/-- Result of one dispatch call: the value returned to the caller, the spawned
handler tasks (none or one), and the router state after the call. -/
structure DispatchOut (α : Type) where
  result : Except String Unit
  spawned : List (SpawnedTask α)
  router : Router α

/-- The rank-probing loop shared by `ServeNATS` and `ServeNATSWithPayload`
(src/v2/router.go lines 290-307 and 320-336): ranks are tried in list order;
the first rank whose tree matches the subject supplies the handler and the
captured parameters, and later ranks are not probed. -/
def probeRanks (trees : List (Int × Trie α)) (path : String) :
    List Int → Option (Int × StoredHandle α × List Param)
  | [] => none
  | rank :: rest =>
    match lookupRank trees rank with
    | some root =>
      match lookupTrie root path with
      | some (h, ps) => some (rank, h, ps)
      | none => probeRanks trees path rest
    | none => probeRanks trees path rest

/-- Common body of `ServeNATS` and `ServeNATSWithPayload`: fetch (and on first
call build) the rank list, probe it in order, spawn the matched handler and
return nil, or return the `404 NotFound` error when nothing matched. -/
def dispatchAux (r : Router α) (msg : SubjectMsg) (payload : Option Payload) :
    DispatchOut α :=
  let rl := getRankList r
  match probeRanks rl.2.trees msg.subject rl.1 with
  | some (rank, h, ps) =>
    { result := .ok ()
      spawned := [{ rank := rank, handle := h, msg := msg,
                    params := if ps.isEmpty then none else some ps,
                    payload := payload }]
      router := rl.2 }
  | none =>
    { result := .error "404 NotFound", spawned := [], router := rl.2 }

/-- Embedding of `ServeNATS` (src/v2/router.go lines 282-310). -/
def ServeNATS (r : Router α) (msg : SubjectMsg) : DispatchOut α :=
  dispatchAux r msg none

/-- Embedding of `ServeNATSWithPayload` (src/v2/router.go lines 312-340). -/
def ServeNATSWithPayload (r : Router α) (msg : SubjectMsg) (payload : Payload) :
    DispatchOut α :=
  dispatchAux r msg (some payload)

/-- The reserved parameter name used by the matched-route-path feature
(src/v2/router.go line 66). -/
def matchedRoutePathParam : List Char := "$matchedRoutePath".data

/-- Embedding of `Handle` (src/v2/router.go lines 144-187). A Go panic is the
`Except.error` result carrying the panic message: it aborts registration
before any state is touched, so no updated router is produced. On success the
pattern is translated, the rank's tree root is created on first use for that
rank (refreshing `globalAllowed` at that moment, with the fresh empty root
already in the map), the route is inserted, `maxParams` is raised if needed,
and the pool allocator flag is installed once `maxParams` is positive. -/
def Handle (r : Router α) (path : String) (rank : Int) (handle : Option α) :
    Except String (Router α) :=
  if rank ≤ 0 ∨ rank > 255 then .error "rank must be > 0"
  else
    match handle with
    | none => .error "handle must not be nil"
    | some h =>
      let path2 := (fromNatsPath path).data
      let varsCount := if r.saveMatchedRoutePath then 1 else 0
      let stored : StoredHandle α :=
        if r.saveMatchedRoutePath then .withMatchedPath path2 h else .plain h
      let r1 :=
        match lookupRank r.trees rank with
        | some _ => r
        | none =>
          let rx := { r with trees := setRank rank ([] : Trie α) r.trees }
          { rx with globalAllowed := allowed rx "*" 0 }
      let root := (lookupRank r1.trees rank).getD []
      let mp :=
        if countParams path2 + varsCount > r1.maxParams then countParams path2 + varsCount
        else r1.maxParams
      let pni := if r1.poolNewInstalled = false ∧ mp > 0 then true else r1.poolNewInstalled
      let r2 : Router α :=
        { r1 with
          trees := setRank rank (addRoute root path2 stored) r1.trees
          maxParams := mp
          poolNewInstalled := pni }
      Except.ok r2

/-- Outcome of running one handler: normal return or a Go panic carrying an
opaque value. -/
inductive HRes
  | ok
  | panics (v : Nat)
deriving DecidableEq, Repr

/-- A concrete handler type used to execute dispatched tasks: a function of
the message, the captured parameters (nil or a list) and the optional
payload, returning its outcome. -/
def HFun : Type := SubjectMsg → Option (List Param) → Option Payload → HRes

/-- Runs a stored handler. The `withMatchedPath` wrapper is the closure built
by `saveMatchedRoutePath` (src/v2/router.go lines 128-141): with nil incoming
parameters the inner handler sees exactly the `$matchedRoutePath` parameter,
otherwise that parameter is appended. -/
def execStored : StoredHandle HFun → SubjectMsg → Option (List Param) →
    Option Payload → HRes
  | .plain h, m, ps, pl => h m ps pl
  | .withMatchedPath p h, m, ps, pl =>
    match ps with
    | none => h m (some [Param.mk matchedRoutePathParam p]) pl
    | some l => h m (some (l ++ [Param.mk matchedRoutePathParam p])) pl

/-- Observable outcome of one spawned goroutine: whether the handler ran to
completion, the panic value escaping the goroutine unrecovered (crashing the
process), and the calls made to the configured `PanicHandler` on that
goroutine. -/
structure GoroutineRun where
  completed : Bool
  escapedPanic : Option Nat
  panicHandlerCalls : List (SubjectMsg × Nat)
deriving DecidableEq, Repr

/-- Embedding of the goroutine body spawned by dispatch (src/v2/router.go
lines 294-301 and 324-331): it consists of the handler call (plus the pool
return) and installs no deferred recover. Go's `recover` intercepts only
panics raised in the goroutine whose own deferred calls run, so the
`defer r.recv(msg)` placed in `ServeNATS` itself (line 284) does not cover
this body; a handler panic escapes the goroutine unrecovered and the
`PanicHandler` is never invoked on this path — which is why the
`panicConfigured` argument cannot influence the outcome. -/
def runSpawned (panicConfigured : Bool) (t : SpawnedTask HFun) : GoroutineRun :=
  match panicConfigured, execStored t.handle t.msg t.params t.payload with
  | _, .ok => { completed := true, escapedPanic := none, panicHandlerCalls := [] }
  | _, .panics v => { completed := false, escapedPanic := some v, panicHandlerCalls := [] }

/-- Whether the tree registered at `rk` (if any) matches the subject `path`:
the condition dispatch tests, rank by rank, while probing. -/
def rankMatches (trees : List (Int × Trie α)) (path : String) (rk : Int) : Bool :=
  match lookupRank trees rk with
  | some t => (lookupTrie t path).isSome
  | none => false

/-- True when the two-character sequence `.*` occurs somewhere in the list:
the strings the token pass of the translator leaves unchanged are exactly
those on which this is false. -/
def hasDotStar : List Char → Bool
  | [] => false
  | [_] => false
  | a :: b :: rest => if a = '.' ∧ b = '*' then true else hasDotStar (b :: rest)

/-- Joins pattern segments with the wildcard separator `.*`: the generic shape
of a pattern containing `segs.length - 1` single-token wildcards. -/
def wildJoin : List (List Char) → List Char
  | [] => []
  | [s] => s
  | s :: s2 :: rest => s ++ '.' :: '*' :: wildJoin (s2 :: rest)

/-- The translated form of `wildJoin segs` when the counter starts at `i`: the
k-th wildcard separator (1-based, counted from `i`) becomes `.:p(i+k)`. -/
def wildResult : Nat → List (List Char) → List Char
  | _, [] => []
  | _, [s] => s
  | i, s :: s2 :: rest =>
    s ++ '.' :: ':' :: 'p' :: natDigits (i + 1) ++ wildResult (i + 1) (s2 :: rest)

/-- A handler that panics with value 7, for exercising panic containment. -/
def hBoom : HFun := fun _ _ _ => .panics 7

/-- A frozen (already serving) router with cached rank list `[1]` and one
registered rank, used to exercise registration after the open-to-serving
transition. -/
def c5base : Router Nat :=
  { trees := [(1, [])], rankIndexList := [1], inited := true }

/-- The router `Handle c5base "b" 2 (some 5)` produces: the new rank 2 was
created and its tree holds the route, the cached rank list is untouched. -/
def c5after : Router Nat :=
  { trees := [(1, []), (2, [([PTok.lit ['b']], StoredHandle.plain 5)])],
    globalAllowed := "1, 2", rankIndexList := [1], inited := true }

/-- A not-yet-serving router with overlapping routes for subject `a` in ranks
2 and 1 (registered in that order), used to exercise rank precedence. -/
def c1router : Router Nat :=
  { trees := [(2, [([PTok.lit ['a']], StoredHandle.plain 22)]),
              (1, [([PTok.lit ['a']], StoredHandle.plain 11)])] }

/-- The tree holding the translated form of pattern `user.*.>`
(`user.:p1.*>`), used to exercise catch-all capture. -/
def c3trie : Trie Nat :=
  [([PTok.lit ['u', 's', 'e', 'r'], PTok.par ['p', '1'], PTok.catchAll],
    StoredHandle.plain 7)]

/-- A router whose ranks were registered in the order 2, 1, 4, 3, for the
allowed-ranks formatting example. -/
def c6router : Router Nat :=
  { trees := [(2, []), (1, []), (4, []), (3, [])] }

/-- A router with a single static route `a.b` in rank 1, used to exercise the
not-found path on an unrelated subject. -/
def c9router : Router Nat :=
  { trees := [(1, [([PTok.lit ['a'], PTok.lit ['b']], StoredHandle.plain 1)])] }

/-- A router whose pool free list holds one used buffer, for exercising
checkout reuse. -/
def c7pooled : Router Nat :=
  { paramsPool := [ParamsBuf.mk 2 [Param.mk ['a'] ['x'], Param.mk ['b'] ['y']]] }

/-- A router with an installed pool allocator, empty free list and maximum
parameter count 3, for exercising fresh checkout. -/
def c7fresh : Router Nat :=
  { poolNewInstalled := true, maxParams := 3 }

theorem replTok_no_occ (cs : List Char) : ∀ i : Nat, hasDotStar cs = false → replTok i cs = cs := by
  induction cs with
  | nil => intro i _; rfl
  | cons a rest ih =>
    cases rest with
    | nil => intro i _; rfl
    | cons b rest2 =>
      intro i h
      rw [hasDotStar] at h
      split at h
      · exact absurd h (by simp)
      · next hne =>
        rw [replTok, if_neg hne, ih i h]

theorem replTok_append (xs : List Char) : ∀ i : Nat, hasDotStar xs = false →
    ∀ ys : List Char,
    replTok i (xs ++ '.' :: '*' :: ys) =
      xs ++ '.' :: ':' :: 'p' :: natDigits (i + 1) ++ replTok (i + 1) ys := by
  induction xs with
  | nil => intro i _ ys; simp [replTok]
  | cons a xs2 ih =>
    cases xs2 with
    | nil =>
      intro i _ ys
      have hne : ¬(a = '.' ∧ '.' = '*') := fun hc => absurd hc.2 (by decide)
      simp only [List.cons_append, List.nil_append]
      rw [replTok, if_neg hne]
      simp [replTok]
    | cons b xs3 =>
      intro i h ys
      rw [hasDotStar] at h
      split at h
      · exact absurd h (by simp)
      · next hne =>
        simp only [List.cons_append]
        rw [replTok, if_neg hne]
        have hrec := ih i h ys
        simp only [List.cons_append] at hrec
        rw [hrec]

theorem replTok_wildJoin (segs : List (List Char)) : ∀ i : Nat,
    (∀ s ∈ segs, hasDotStar s = false) →
    replTok i (wildJoin segs) = wildResult i segs := by
  induction segs with
  | nil => intro i _; rfl
  | cons s rest ih =>
    cases rest with
    | nil =>
      intro i h
      rw [wildJoin, wildResult]
      exact replTok_no_occ s i (h s (by simp))
    | cons s2 rest2 =>
      intro i h
      rw [wildJoin, wildResult]
      rw [replTok_append s i (h s (by simp))]
      rw [ih (i + 1) (fun t ht => h t (by simp [ht]))]

theorem replaceCatchAll_suffix (pre : List Char) :
    replaceCatchAll (pre ++ ['.', '>']) = pre ++ ['.', '*', '>'] := by
  rw [replaceCatchAll]
  simp

theorem replTok_leading_star (i : Nat) (ys : List Char) :
    replTok i ('*' :: ys) = '*' :: replTok i ys := by
  cases ys with
  | nil => rfl
  | cons y ys2 =>
    have hne : ¬('*' = '.' ∧ y = '*') := fun hc => absurd hc.1 (by decide)
    rw [replTok, if_neg hne]

end NatsRouter

namespace NatsRouter


theorem probeRanks_sound {α : Type} (trees : List (Int × Trie α)) (path : String) :
    ∀ (L : List Int) (rk : Int) (h : StoredHandle α) (ps : List Param),
      probeRanks trees path L = some (rk, h, ps) →
      rk ∈ L ∧ ∃ root, lookupRank trees rk = some root ∧
        lookupTrie root path = some (h, ps) := by
  intro L
  induction L with
  | nil => intro rk h ps hp; simp [probeRanks] at hp
  | cons rank rest ih =>
    intro rk h ps hp
    rw [probeRanks] at hp
    cases hr : lookupRank trees rank with
    | some root =>
      cases hv : lookupTrie root path with
      | some r0 =>
        obtain ⟨h0, ps0⟩ := r0
        simp only [hr, hv] at hp
        simp at hp
        obtain ⟨h1, h2, h3⟩ := hp
        subst h1
        refine ⟨by simp, root, hr, ?_⟩
        rw [hv, h2, h3]
      | none =>
        simp only [hr, hv] at hp
        obtain ⟨hm, root2, hl, hv2⟩ := ih rk h ps hp
        exact ⟨by simp [hm], root2, hl, hv2⟩
    | none =>
      simp only [hr] at hp
      obtain ⟨hm, root2, hl, hv2⟩ := ih rk h ps hp
      exact ⟨by simp [hm], root2, hl, hv2⟩

theorem probeRanks_eq_none {α : Type} (trees : List (Int × Trie α)) (path : String) :
    ∀ L : List Int, probeRanks trees path L = none ↔
      ∀ rk ∈ L, rankMatches trees path rk = false := by
  intro L
  induction L with
  | nil => simp [probeRanks]
  | cons rank rest ih =>
    rw [probeRanks]
    cases hr : lookupRank trees rank with
    | some root =>
      cases hv : lookupTrie root path with
      | some r0 =>
        simp only [hr, hv]
        constructor
        · intro hp; exact absurd hp (by simp)
        · intro hall
          have hx := hall rank (by simp)
          simp only [rankMatches, hr, hv] at hx
          simp at hx
      | none =>
        simp only [hr, hv, ih]
        constructor
        · intro hall rk hm
          rcases List.mem_cons.mp hm with h1 | h2
          · subst h1; simp [rankMatches, hr, hv]
          · exact hall rk h2
        · intro hall rk hm; exact hall rk (by simp [hm])
    | none =>
      simp only [hr, ih]
      constructor
      · intro hall rk hm
        rcases List.mem_cons.mp hm with h1 | h2
        · subst h1; simp [rankMatches, hr]
        · exact hall rk h2
      · intro hall rk hm; exact hall rk (by simp [hm])

theorem probeRanks_min {α : Type} (trees : List (Int × Trie α)) (path : String) :
    ∀ L : List Int, L.Sorted (· ≤ ·) →
      ∀ (rk : Int) (h : StoredHandle α) (ps : List Param),
      probeRanks trees path L = some (rk, h, ps) →
      ∀ rk2 ∈ L, rankMatches trees path rk2 = true → rk ≤ rk2 := by
  intro L
  induction L with
  | nil => intro _ rk h ps hp; simp [probeRanks] at hp
  | cons rank rest ih =>
    intro hs rk h ps hp rk2 hm hmatch
    have hs2 := (List.sorted_cons.mp hs)
    rw [probeRanks] at hp
    cases hr : lookupRank trees rank with
    | some root =>
      cases hv : lookupTrie root path with
      | some r0 =>
        obtain ⟨h0, ps0⟩ := r0
        simp only [hr, hv] at hp
        simp at hp
        obtain ⟨h1, _, _⟩ := hp
        subst h1
        rcases List.mem_cons.mp hm with he | he2
        · subst he; exact le_refl _
        · exact hs2.1 rk2 he2
      | none =>
        simp only [hr, hv] at hp
        rcases List.mem_cons.mp hm with he | he2
        · subst he
          simp only [rankMatches, hr, hv] at hmatch
          simp at hmatch
        · exact ih hs2.2 rk h ps hp rk2 he2 hmatch
    | none =>
      simp only [hr] at hp
      rcases List.mem_cons.mp hm with he | he2
      · subst he
        simp only [rankMatches, hr] at hmatch
        simp at hmatch
      · exact ih hs2.2 rk h ps hp rk2 he2 hmatch

theorem lookupRank_setRank_self {α : Type} (rank : Int) (t : Trie α) :
    ∀ trees : List (Int × Trie α), lookupRank (setRank rank t trees) rank = some t := by
  intro trees
  induction trees with
  | nil => simp [setRank, lookupRank]
  | cons e rest ih =>
    cases hbe : (e.1 == rank) with
    | true => simp [setRank, hbe, lookupRank]
    | false =>
      simp only [setRank, hbe, Bool.false_eq_true, if_false]
      rw [lookupRank, if_neg (by simp [hbe])]
      exact ih

theorem lookupRank_setRank_ne {α : Type} (rank rk : Int) (hne : rk ≠ rank) (t : Trie α) :
    ∀ trees : List (Int × Trie α),
      lookupRank (setRank rank t trees) rk = lookupRank trees rk := by
  intro trees
  have hrne : ((rank : Int) == rk) = false := beq_eq_false_iff_ne.mpr (Ne.symm hne)
  induction trees with
  | nil => simp [setRank, lookupRank, hrne]
  | cons e rest ih =>
    cases hbe : (e.1 == rank) with
    | true =>
      have h1 : (e.1 : Int) = rank := beq_iff_eq.mp hbe
      have h3 : (e.1 == rk) = false := by rw [h1]; exact hrne
      simp [setRank, hbe, lookupRank, hrne, h3]
    | false =>
      simp only [setRank, hbe, Bool.false_eq_true, if_false]
      rw [lookupRank, lookupRank]
      cases hb : (e.1 == rk) with
      | true => simp [hb]
      | false => simp [hb, ih]


theorem lookupRank_mem {α : Type} :
    ∀ (trees : List (Int × Trie α)) (rk : Int) (root : Trie α),
      lookupRank trees rk = some root → ∃ e ∈ trees, e.2 = root := by
  intro trees
  induction trees with
  | nil => intro rk root h; simp [lookupRank] at h
  | cons e rest ih =>
    intro rk root h
    rw [lookupRank] at h
    split at h
    · exact ⟨e, by simp, (Option.some.inj h).symm ▸ rfl⟩
    · obtain ⟨e2, he2, hr⟩ := ih rk root h
      exact ⟨e2, by simp [he2], hr⟩

theorem lookupGo_catchAll_dot {α : Type} :
    ∀ (ss : List (List Char)) (entries : List (LookEntry α)),
      (∀ e ∈ entries, (∀ tok ∈ e.1, tok ≠ PTok.par ['>']) ∧
        (∀ p ∈ e.2.1, p.key = ['>'] → ∃ v, p.value = '.' :: v)) →
      ∀ (hd : StoredHandle α) (ps : List Param), lookupGo entries ss = some (hd, ps) →
      ∀ p ∈ ps, p.key = ['>'] → ∃ v, p.value = '.' :: v := by
  intro ss
  induction ss with
  | nil =>
    intro entries hg hd ps hl p hp hk
    rw [lookupGo] at hl
    obtain ⟨e, he, hfe⟩ := List.exists_of_findSome?_eq_some hl
    cases he1 : e.1 with
    | nil =>
      simp only [doneSel, he1] at hfe
      have hpr := Option.some.inj hfe
      have hps : e.2.1.reverse = ps := congrArg Prod.snd hpr
      rw [← hps] at hp
      exact (hg e he).2 p (List.mem_reverse.mp hp) hk
    | cons t1 rest1 =>
      simp [doneSel, he1] at hfe
  | cons s rest ih =>
    intro entries hg hd ps hl p hp hk
    rw [lookupGo] at hl
    cases hstat : lookupGo (entries.filterMap (statSel s)) rest with
    | some r1 =>
      simp only [hstat] at hl
      have hr1 := Option.some.inj hl
      subst hr1
      refine ih (entries.filterMap (statSel s)) ?_ hd ps hstat p hp hk
      intro e2 he2
      obtain ⟨e, he, hfe⟩ := List.mem_filterMap.mp he2
      cases he1 : e.1 with
      | nil => simp [statSel, he1] at hfe
      | cons tok toks =>
        cases tok with
        | lit t1 =>
          simp only [statSel, he1] at hfe
          split at hfe
          · have hpr := Option.some.inj hfe
            subst hpr
            refine ⟨fun tok2 ht2 => (hg e he).1 tok2 (by simp [he1, ht2]), ?_⟩
            exact (hg e he).2
          · simp at hfe
        | par n1 => simp [statSel, he1] at hfe
        | catchAll => simp [statSel, he1] at hfe
    | none =>
      cases hpar : lookupGo (entries.filterMap (parSel s)) rest with
      | some r1 =>
        simp only [hstat, hpar] at hl
        have hr1 := Option.some.inj hl
        subst hr1
        refine ih (entries.filterMap (parSel s)) ?_ hd ps hpar p hp hk
        intro e2 he2
        obtain ⟨e, he, hfe⟩ := List.mem_filterMap.mp he2
        cases he1 : e.1 with
        | nil => simp [parSel, he1] at hfe
        | cons tok toks =>
          cases tok with
          | lit t1 => simp [parSel, he1] at hfe
          | par n1 =>
            simp only [parSel, he1] at hfe
            have hpr := Option.some.inj hfe
            subst hpr
            constructor
            · exact fun tok2 ht2 => (hg e he).1 tok2 (by simp [he1, ht2])
            · intro p2 hp2 hk2
              rcases List.mem_cons.mp hp2 with hh | ht
              · subst hh
                simp only at hk2
                have hn1 : n1 ≠ ['>'] := by
                  intro hc
                  exact (hg e he).1 (PTok.par n1) (by simp [he1]) (by rw [hc])
                exact absurd hk2 hn1
              · exact (hg e he).2 p2 ht hk2
          | catchAll => simp [parSel, he1] at hfe
      | none =>
        simp only [hstat, hpar] at hl
        obtain ⟨e, he, hfe⟩ := List.exists_of_findSome?_eq_some hl
        cases he1 : e.1 with
        | nil => simp [catchSel, he1] at hfe
        | cons tok toks =>
          cases tok with
          | lit t1 => simp [catchSel, he1] at hfe
          | par n1 => simp [catchSel, he1] at hfe
          | catchAll =>
            cases toks with
            | cons t2 r2 => simp [catchSel, he1] at hfe
            | nil =>
              simp only [catchSel, he1] at hfe
              have hpr := Option.some.inj hfe
              have hps : (Param.mk ['>']
                  ('.' :: List.intercalate ['.'] (s :: rest)) :: e.2.1).reverse = ps := by
                have := congrArg Prod.snd hpr
                simpa using this
              rw [← hps] at hp
              rcases List.mem_cons.mp (List.mem_reverse.mp hp) with hh | ht
              · subst hh
                exact ⟨List.intercalate ['.'] (s :: rest), rfl⟩
              · exact (hg e he).2 p ht hk


theorem getRankList_trees {α : Type} (r : Router α) :
    (getRankList r).2.trees = r.trees := by
  rw [getRankList]
  cases hi : r.inited <;> simp [hi]

theorem getRankList_of_inited {α : Type} (r : Router α) (h : r.inited = true) :
    getRankList r = (r.rankIndexList, r) := by
  rw [getRankList, if_pos h]

theorem dispatch_spawn_rank_mem {α : Type} (r : Router α) (msg : SubjectMsg)
    (payload : Option Payload) (hinit : r.inited = true) :
    ∀ t ∈ (dispatchAux r msg payload).spawned, t.rank ∈ r.rankIndexList := by
  intro t ht
  rw [dispatchAux, getRankList_of_inited r hinit] at ht
  cases hp : probeRanks r.trees msg.subject r.rankIndexList with
  | none => simp only [hp] at ht; simp at ht
  | some trip =>
    obtain ⟨rk0, h0, ps0⟩ := trip
    simp only [hp] at ht
    simp at ht
    subst ht
    exact (probeRanks_sound r.trees msg.subject r.rankIndexList rk0 h0 ps0 hp).1


/-- C2: for every input pattern, `fromNatsPath` replaces the k-th
left-to-right occurrence of `.*` with `.:pk`, the 1-based counter restarting
for each call (the token pass always starts at 0), and rewrites a trailing
`.>` suffix to `.*>`; in particular `user.>` translates to `user.*>` and
`user.*.*.>` translates to `user.:p1.:p2.*>`. -/
theorem C2_translation :
    (∀ (i : Nat) (segs : List (List Char)), (∀ s ∈ segs, hasDotStar s = false) →
        replTok i (wildJoin segs) = wildResult i segs)
    ∧ (∀ pre : List Char, replaceCatchAll (pre ++ ['.', '>']) = pre ++ ['.', '*', '>'])
    ∧ (∀ path : String, fromNatsPath path = ⟨replaceCatchAll (replTok 0 path.data)⟩)
    ∧ fromNatsPath "user.>" = "user.*>"
    ∧ fromNatsPath "user.*.*.>" = "user.:p1.:p2.*>" :=
  ⟨fun i segs h => replTok_wildJoin segs i h, replaceCatchAll_suffix,
   fun _ => rfl, by decide, by decide⟩

/-- Witness for C2: the generic clauses applied at the concrete pattern
`user.*.*` (segments `user`, ``, ``) and at the concrete prefix `user`. -/
theorem C2_translation_witness :
    (∀ s ∈ [List.cons 'u' ['s', 'e', 'r'], [], []], hasDotStar s = false)
    ∧ replTok 0 (wildJoin [List.cons 'u' ['s', 'e', 'r'], [], []])
        = wildResult 0 [List.cons 'u' ['s', 'e', 'r'], [], []]
    ∧ replaceCatchAll (List.cons 'u' ['s', 'e', 'r'] ++ ['.', '>'])
        = List.cons 'u' ['s', 'e', 'r'] ++ ['.', '*', '>'] :=
  ⟨by decide, C2_translation.1 0 [List.cons 'u' ['s', 'e', 'r'], [], []] (by decide),
   C2_translation.2.1 (List.cons 'u' ['s', 'e', 'r'])⟩

/-- C10: a leading `*` token not preceded by a dot is left unchanged by the
translator: only occurrences of the two-character sequence `.*` are rewritten,
so the 1-based numbering counts only dot-preceded wildcards (`*.a.*` becomes
`*.a.:p1`). -/
theorem C10_leading_star :
    (∀ (i : Nat) (ys : List Char), replTok i ('*' :: ys) = '*' :: replTok i ys)
    ∧ fromNatsPath "*" = "*"
    ∧ fromNatsPath "*.foo" = "*.foo"
    ∧ fromNatsPath "*.a.*" = "*.a.:p1" :=
  ⟨replTok_leading_star, by decide, by decide, by decide⟩

/-- C4 evidence: the v2 dispatcher spawns the matched handler on its own
goroutine whose body installs no recover, while the `defer r.recv(msg)` of
`ServeNATS` only covers the dispatching goroutine; so with a `PanicHandler`
configured and a handler that panics with value 7, dispatch itself returns
success, and running the spawned task lets the panic escape unrecovered with
no `PanicHandler` invocation — contradicting the documented behaviour that
handler panics are recovered via the callback. -/
theorem C4_handler_panic_escapes :
    Except.map (fun r0 =>
      ((ServeNATS { r0 with panicHandlerSet := true } ⟨"boom"⟩).result,
       (ServeNATS { r0 with panicHandlerSet := true } ⟨"boom"⟩).spawned.map (runSpawned true)))
      (Handle (New : Router HFun) "boom" 1 (some hBoom))
    = Except.ok (Except.ok (),
        [{ completed := false, escapedPanic := some 7, panicHandlerCalls := [] }]) := by
  rfl

/-- C7 counterexample: on a router with no registered parametric routes the
pool allocator is uninitialized, and checkout yields no buffer at all (the Go
type assertion on the untyped nil fails and `getParams` returns nil) rather
than a fresh buffer of the current maximum capacity. -/
theorem C7_uninitialized_pool_cex :
    (New : Router Nat).paramsPool = [] ∧ (New : Router Nat).poolNewInstalled = false
    ∧ (getParams (New : Router Nat)).1 = none :=
  ⟨rfl, rfl, rfl⟩

/-- C7 (amended): checkout resets the checked-out buffer's logical length to
zero without clearing previous contents; checkout from an empty pool whose
allocator is installed yields a fresh zeroed buffer of the router's current
maximum parameter capacity; checkout from an empty pool whose allocator was
never installed yields no buffer. -/
theorem C7_pool_checkout {α : Type} (r : Router α) :
    (∀ (b : ParamsBuf) (rest : List ParamsBuf), r.paramsPool = b :: rest →
        getParams r = (some { len := 0, store := b.store }, { r with paramsPool := rest }))
    ∧ (r.paramsPool = [] → r.poolNewInstalled = true →
        getParams r = (some { len := 0, store := List.replicate r.maxParams (Param.mk [] []) }, r))
    ∧ (r.paramsPool = [] → r.poolNewInstalled = false → getParams r = (none, r)) := by
  refine ⟨?_, ?_, ?_⟩
  · intro b rest hb
    simp only [getParams, hb]
  · intro h1 h2
    simp only [getParams, h1, h2, if_true]
  · intro h1 h2
    simp only [getParams, h1, h2, Bool.false_eq_true, if_false]

/-- Witness for C7: checkout from a pool holding a used two-entry buffer
returns it with length reset and contents intact, and checkout from the empty
pool of a router with installed allocator and maximum capacity 3 returns a
fresh zeroed buffer of capacity 3. -/
theorem C7_pool_checkout_witness :
    getParams c7pooled
      = (some { len := 0, store := [Param.mk ['a'] ['x'], Param.mk ['b'] ['y']] },
         { c7pooled with paramsPool := [] })
    ∧ getParams c7fresh
      = (some { len := 0, store := List.replicate 3 (Param.mk [] []) }, c7fresh) :=
  ⟨(C7_pool_checkout c7pooled).1 (ParamsBuf.mk 2 [Param.mk ['a'] ['x'], Param.mk ['b'] ['y']]) [] rfl,
   (C7_pool_checkout c7fresh).2.1 rfl rfl⟩

/-- C8: registering with a rank outside 1..255 or with a nil handler panics
(modelled as the `Except.error` carrying the panic message) without producing
any updated router: both guards run before the translation, the tree
creation and insertion, and the `maxParams` and pool updates, so no state is
touched. -/
theorem C8_invalid_registration {α : Type} (r : Router α) (path : String) (rank : Int) :
    ((rank ≤ 0 ∨ rank > 255) →
      ∀ hOpt : Option α, Handle r path rank hOpt = Except.error "rank must be > 0")
    ∧ (¬(rank ≤ 0 ∨ rank > 255) →
      Handle r path rank none = Except.error "handle must not be nil") := by
  constructor
  · intro hbad hOpt
    rw [Handle.eq_def, if_pos hbad]
  · intro hok
    rw [Handle.eq_def, if_neg hok]

/-- Witness for C8: rank 0 and rank 256 fail the rank guard, and a nil
handler at the valid rank 5 fails the handler guard. -/
theorem C8_invalid_registration_witness :
    ((0 : Int) ≤ 0 ∨ (0 : Int) > 255)
    ∧ Handle (New : Router Nat) "x" 0 (some 1) = Except.error "rank must be > 0"
    ∧ ((256 : Int) ≤ 0 ∨ (256 : Int) > 255)
    ∧ Handle (New : Router Nat) "x" 256 (some 1) = Except.error "rank must be > 0"
    ∧ ¬((5 : Int) ≤ 0 ∨ (5 : Int) > 255)
    ∧ Handle (New : Router Nat) "x" 5 none = Except.error "handle must not be nil" :=
  ⟨by decide, (C8_invalid_registration New "x" 0).1 (by decide) (some 1),
   by decide, (C8_invalid_registration New "x" 256).1 (by decide) (some 1),
   by decide, (C8_invalid_registration New "x" 5).2 (by decide)⟩


/-- C3: a matched trailing catch-all always produces a parameter named `>`
whose captured value starts with the `.` separator (for any tree without an
explicitly `>`-named parametric token), and a registered pattern mixing a
single-token wildcard with a catch-all captures its parameters in
left-to-right pattern order: registering `user.*.>` and dispatching
`user.gopher.star.ok` invokes the handler with exactly
`[(p1, gopher), (>, .star.ok)]`, and registering `user.>` captures the single
parameter `(>, .gopher.star.ok)`. -/
theorem C3_catchAll_capture :
    Except.map (fun r => (ServeNATS r ⟨"user.gopher.star.ok"⟩).spawned.map
        (fun t => (t.rank, t.handle, t.params)))
      (Handle (New : Router Nat) "user.*.>" 1 (some 7))
    = Except.ok [(1, StoredHandle.plain 7,
        some [Param.mk ['p', '1'] "gopher".data, Param.mk ['>'] ".star.ok".data])]
    ∧ Except.map (fun r => (ServeNATS r ⟨"user.gopher.star.ok"⟩).spawned.map
        (fun t => (t.rank, t.handle, t.params)))
      (Handle (New : Router Nat) "user.>" 1 (some 8))
    = Except.ok [(1, StoredHandle.plain 8, some [Param.mk ['>'] ".gopher.star.ok".data])]
    ∧ (∀ (t : Trie Nat) (subject : String) (hd : StoredHandle Nat) (ps : List Param),
        (∀ e ∈ t, ∀ tok ∈ e.1, tok ≠ PTok.par ['>']) →
        lookupTrie t subject = some (hd, ps) →
        ∀ p ∈ ps, p.key = ['>'] → ∃ v, p.value = '.' :: v) := by
  refine ⟨by rfl, by rfl, ?_⟩
  intro t subject hd ps hnp hl
  rw [lookupTrie] at hl
  refine lookupGo_catchAll_dot (splitDots subject.data) _ ?_ hd ps hl
  intro e2 he2
  obtain ⟨e, he, heq⟩ := List.mem_map.mp he2
  subst heq
  exact ⟨fun tok ht => hnp e he tok ht, by simp⟩

/-- Witness for C3: the generic catch-all clause applied at the tree obtained
from registering `user.*.>` and the subject `user.gopher.star.ok`. -/
theorem C3_catchAll_capture_witness :
    (∀ e ∈ c3trie, ∀ tok ∈ e.1, tok ≠ PTok.par ['>'])
    ∧ lookupTrie c3trie "user.gopher.star.ok"
        = some (StoredHandle.plain 7,
            [Param.mk ['p', '1'] "gopher".data, Param.mk ['>'] ".star.ok".data])
    ∧ (∀ p ∈ [Param.mk ['p', '1'] "gopher".data, Param.mk ['>'] ".star.ok".data],
        p.key = ['>'] → ∃ v, p.value = '.' :: v) :=
  ⟨by decide, by rfl,
   C3_catchAll_capture.2.2 c3trie "user.gopher.star.ok" (StoredHandle.plain 7)
     [Param.mk ['p', '1'] "gopher".data, Param.mk ['>'] ".star.ok".data]
     (by decide) (by rfl)⟩

/-- C9: a message whose subject matches no registered pattern at any rank
yields the `404 NotFound` error and spawns no handler invocation at all, and
the not-found error is the only error dispatch can ever return. -/
theorem C9_not_found {α : Type} (r : Router α) (msg : SubjectMsg)
    (payload : Option Payload)
    (h : ∀ e ∈ r.trees, lookupTrie e.2 msg.subject = none) :
    (dispatchAux r msg payload).result = Except.error "404 NotFound"
    ∧ (dispatchAux r msg payload).spawned = []
    ∧ ServeNATS r msg = dispatchAux r msg none
    ∧ (∀ pl : Payload, ServeNATSWithPayload r msg pl = dispatchAux r msg (some pl))
    ∧ (∀ (r2 : Router α) (m2 : SubjectMsg) (p2 : Option Payload),
        (dispatchAux r2 m2 p2).result = Except.ok ()
        ∨ (dispatchAux r2 m2 p2).result = Except.error "404 NotFound") := by
  have hfm : ∀ rk : Int, rankMatches r.trees msg.subject rk = false := by
    intro rk
    rw [rankMatches]
    cases hr : lookupRank r.trees rk with
    | none => rfl
    | some root =>
      obtain ⟨e, he, he2⟩ := lookupRank_mem r.trees rk root hr
      have hnone := h e he
      rw [he2] at hnone
      simp [hnone]
  have hprobe : probeRanks r.trees msg.subject (getRankList r).1 = none :=
    (probeRanks_eq_none r.trees msg.subject (getRankList r).1).mpr
      (fun rk _ => hfm rk)
  refine ⟨?_, ?_, rfl, fun _ => rfl, ?_⟩
  · rw [dispatchAux, getRankList_trees, hprobe]
  · rw [dispatchAux, getRankList_trees, hprobe]
  · intro r2 m2 p2
    rw [dispatchAux]
    cases hp : probeRanks (getRankList r2).2.trees m2.subject (getRankList r2).1 with
    | none => right; simp only [hp]
    | some trip =>
      obtain ⟨rk0, h0, ps0⟩ := trip
      left
      simp only [hp]

/-- Witness for C9: a router holding only the static route `a.b` in rank 1
dispatches the unrelated subject `zzz` to the not-found error with no spawned
invocation. -/
theorem C9_not_found_witness :
    (∀ e ∈ c9router.trees, lookupTrie e.2 (SubjectMsg.mk "zzz").subject = none)
    ∧ (dispatchAux c9router ⟨"zzz"⟩ none).result = Except.error "404 NotFound"
    ∧ (dispatchAux c9router ⟨"zzz"⟩ none).spawned = [] :=
  ⟨by decide,
   (C9_not_found c9router ⟨"zzz"⟩ none (by decide)).1,
   (C9_not_found c9router ⟨"zzz"⟩ none (by decide)).2.1⟩


/-- C6: `allowed` on subject `*` with requesting rank 0 returns every known
rank; on subject `*` with a non-zero requesting rank it returns the cached
`globalAllowed` string; on a concrete subject it collects the ranks other
than the requester whose tree matches; every non-empty result is the matching
ranks sorted ascending and comma-separated (ranks registered in the order
2, 1, 4, 3 yield exactly "1, 2, 3, 4"), and the empty string results when
nothing is collected. -/
theorem C6_allowed_ranks {α : Type} :
    (∀ r : Router α, ∃ l : List Int,
        l.Perm (r.trees.map (fun e => e.1)) ∧ l.Sorted (· ≤ ·) ∧
        allowed r "*" 0
          = (if l = [] then "" else String.intercalate ", " (l.map (fun i => toString i))))
    ∧ (∀ (r : Router α) (k : Int), k ≠ 0 → allowed r "*" k = r.globalAllowed)
    ∧ (∀ (r : Router α) (s : String) (k : Int), s ≠ "*" →
        ∃ l : List Int,
          l.Perm ((r.trees.filter
              (fun e => e.1 != k && (lookupTrie e.2 s).isSome)).map (fun e => e.1))
          ∧ l.Sorted (· ≤ ·)
          ∧ allowed r s k
            = (if l = [] then "" else String.intercalate ", " (l.map (fun i => toString i))))
    ∧ allowed c6router "*" 0 = "1, 2, 3, 4" := by
  have hbranch : ∀ ranks : List Int,
      (if ranks = [] then ""
       else String.intercalate ", " ((List.insertionSort (· ≤ ·) ranks).map (fun i => toString i)))
      = (if List.insertionSort (· ≤ ·) ranks = [] then ""
         else String.intercalate ", "
           ((List.insertionSort (· ≤ ·) ranks).map (fun i => toString i))) := by
    intro ranks
    by_cases h0 : ranks = []
    · subst h0; rfl
    · have h1 : List.insertionSort (· ≤ ·) ranks ≠ [] := by
        intro hc
        have hp2 := List.perm_insertionSort (· ≤ ·) ranks
        rw [hc] at hp2
        exact h0 (hp2.symm.eq_nil)
      rw [if_neg h0, if_neg h1]
  refine ⟨?_, ?_, ?_, by decide⟩
  · intro r
    refine ⟨List.insertionSort (· ≤ ·) (r.trees.map (fun e => e.1)),
        List.perm_insertionSort (· ≤ ·) _, List.sorted_insertionSort (· ≤ ·) _, ?_⟩
    have h1 : ¬(("*" : String) = "*" ∧ (0 : Int) ≠ 0) := by simp
    rw [allowed, if_neg h1]
    simp only [if_pos rfl]
    exact hbranch (r.trees.map (fun e => e.1))
  · intro r k hk
    rw [allowed, if_pos ⟨rfl, hk⟩]
  · intro r s k hs
    refine ⟨List.insertionSort (· ≤ ·) ((r.trees.filter
        (fun e => e.1 != k && (lookupTrie e.2 s).isSome)).map (fun e => e.1)),
        List.perm_insertionSort (· ≤ ·) _, List.sorted_insertionSort (· ≤ ·) _, ?_⟩
    have h1 : ¬(s = "*" ∧ k ≠ 0) := fun hc => hs hc.1
    rw [allowed, if_neg h1]
    simp only [if_neg hs]
    exact hbranch _

/-- Witness for C6: the cached-global and concrete-subject clauses applied to
the four-rank example router, with requesting rank 1 and subject `a`. -/
theorem C6_allowed_ranks_witness :
    ((1 : Int) ≠ 0 ∧ allowed c6router "*" 1 = c6router.globalAllowed)
    ∧ (("a" : String) ≠ "*"
       ∧ ∃ l : List Int,
          l.Perm ((c6router.trees.filter
              (fun e => e.1 != 1 && (lookupTrie e.2 "a").isSome)).map (fun e => e.1))
          ∧ l.Sorted (· ≤ ·)
          ∧ allowed c6router "a" 1
            = (if l = [] then "" else String.intercalate ", " (l.map (fun i => toString i)))) :=
  ⟨⟨by decide, C6_allowed_ranks.2.1 c6router 1 (by decide)⟩,
   ⟨by decide, C6_allowed_ranks.2.2.1 c6router "a" 1 (by decide)⟩⟩

/-- C1: on the first dispatch call (router not yet serving, stored rank list
empty) for a subject matching the trees of at least two ranks, dispatch
computes and permanently caches the ascending-sorted list of registered
ranks, probes it in ascending order, returns success, and spawns exactly one
handler invocation — the handler bound at the lowest matching rank — without
executing it synchronously (the spawned task is returned as a value; the
success result never depends on it); every dispatch call spawns at most one
invocation, and both `ServeNATS` and `ServeNATSWithPayload` are this common
dispatch body. -/
theorem C1_rank_precedence {α : Type} (r : Router α) (msg : SubjectMsg)
    (payload : Option Payload)
    (hinit : r.inited = false) (hidx : r.rankIndexList = [])
    (htwo : 2 ≤ ((r.trees.map (fun e => e.1)).filter
        (fun rk => rankMatches r.trees msg.subject rk)).length) :
    ServeNATS r msg = dispatchAux r msg none
    ∧ (∀ pl : Payload, ServeNATSWithPayload r msg pl = dispatchAux r msg (some pl))
    ∧ (∀ (r2 : Router α) (m2 : SubjectMsg) (p2 : Option Payload),
        (dispatchAux r2 m2 p2).spawned.length ≤ 1)
    ∧ (dispatchAux r msg payload).result = Except.ok ()
    ∧ (dispatchAux r msg payload).router.inited = true
    ∧ (dispatchAux r msg payload).router.rankIndexList
        = List.insertionSort (· ≤ ·) (r.trees.map (fun e => e.1))
    ∧ getRankList (dispatchAux r msg payload).router
        = ((dispatchAux r msg payload).router.rankIndexList,
           (dispatchAux r msg payload).router)
    ∧ ∃ t : SpawnedTask α,
        (dispatchAux r msg payload).spawned = [t]
        ∧ t.msg = msg ∧ t.payload = payload
        ∧ rankMatches r.trees msg.subject t.rank = true
        ∧ (∀ rk ∈ r.trees.map (fun e => e.1),
            rankMatches r.trees msg.subject rk = true → t.rank ≤ rk)
        ∧ ∃ (root : Trie α) (ps : List Param),
            lookupRank r.trees t.rank = some root
            ∧ lookupTrie root msg.subject = some (t.handle, ps)
            ∧ t.params = (if ps.isEmpty then none else some ps) := by
  have hgrl : getRankList r =
      (List.insertionSort (· ≤ ·) (r.trees.map (fun e => e.1)),
       { r with rankIndexList := List.insertionSort (· ≤ ·) (r.trees.map (fun e => e.1)),
                inited := true }) := by
    rw [getRankList, if_neg (by simp [hinit]), hidx]
    rfl
  have hpos : 0 < ((r.trees.map (fun e => e.1)).filter
      (fun rk => rankMatches r.trees msg.subject rk)).length :=
    lt_of_lt_of_le (by norm_num) htwo
  obtain ⟨rk1, hrk1⟩ := List.exists_mem_of_length_pos hpos
  have hrk1m := List.mem_filter.mp hrk1
  have hperm := List.perm_insertionSort (· ≤ ·) (r.trees.map (fun e => e.1))
  have hrk1L : rk1 ∈ List.insertionSort (· ≤ ·) (r.trees.map (fun e => e.1)) :=
    hperm.mem_iff.mpr hrk1m.1
  have hne : probeRanks r.trees msg.subject
      (List.insertionSort (· ≤ ·) (r.trees.map (fun e => e.1))) ≠ none := by
    intro hc
    have hf := (probeRanks_eq_none r.trees msg.subject _).mp hc rk1 hrk1L
    rw [hrk1m.2] at hf
    exact absurd hf (by simp)
  obtain ⟨trip, htrip⟩ := Option.ne_none_iff_exists'.mp hne
  obtain ⟨rk0, h0, ps0⟩ := trip
  obtain ⟨hrk0L, root0, hroot0, hlook0⟩ :=
    probeRanks_sound r.trees msg.subject _ rk0 h0 ps0 htrip
  have hmin := probeRanks_min r.trees msg.subject _
      (List.sorted_insertionSort (· ≤ ·) (r.trees.map (fun e => e.1))) rk0 h0 ps0 htrip
  have hd : dispatchAux r msg payload =
      { result := Except.ok (),
        spawned := [{ rank := rk0, handle := h0, msg := msg,
                      params := if ps0.isEmpty then none else some ps0,
                      payload := payload }],
        router := (getRankList r).2 } := by
    rw [dispatchAux, getRankList_trees]
    rw [hgrl]
    simp only [htrip]
  refine ⟨rfl, fun _ => rfl, ?_, ?_, ?_, ?_, ?_, ?_⟩
  · intro r2 m2 p2
    rw [dispatchAux]
    cases hp : probeRanks (getRankList r2).2.trees m2.subject (getRankList r2).1 with
    | none => simp only [hp]; simp
    | some trip2 =>
      obtain ⟨a, b, c⟩ := trip2
      simp only [hp]
      simp
  · rw [hd]
  · rw [hd, hgrl]
  · rw [hd, hgrl]
  · rw [hd, hgrl]
    rw [getRankList_of_inited]
    rfl
  · refine ⟨SpawnedTask.mk rk0 h0 msg (if ps0.isEmpty then none else some ps0) payload,
      by rw [hd], rfl, rfl, ?_, ?_, root0, ps0, hroot0, hlook0, rfl⟩
    · simp only [rankMatches, hroot0, hlook0]
      rfl
    · intro rk hrkmem hrkmatch
      exact hmin rk (hperm.mem_iff.mpr hrkmem) hrkmatch


/-- C5 counterexample: the claim that no pattern registered after the first
dispatch is ever considered fails when the registration lands in a rank that
is already in the frozen cached list: register `a` in rank 1, dispatch once
(freezing the cache at ranks `[1]`), register `b` in rank 1 — dispatching `b`
then invokes the newly registered handler 2. -/
theorem C5_claim_cex :
    (Handle (New : Router Nat) "a" 1 (some 1)).bind (fun r1 =>
      (Handle (ServeNATS r1 ⟨"a"⟩).router "b" 1 (some 2)).map (fun r3 =>
        ((ServeNATS r1 ⟨"a"⟩).router.inited,
         (ServeNATS r3 ⟨"b"⟩).spawned.map (fun t => (t.rank, t.handle, t.params)))))
    = Except.ok (true, [((1 : Int), StoredHandle.plain 2, (none : Option (List Param)))]) := by
  rfl

/-- C5 (amended): a registration after the open-to-serving transition still
inserts its translated pattern into the corresponding rank tree and leaves
the frozen rank cache untouched, and a pattern registered in a rank absent
from the cached list is never considered by ascending-rank dispatch (every
spawned task's rank lies in the cached list); a post-freeze registration into
an already-cached rank is, however, reachable by dispatch, as the
counterexample shows. -/
theorem C5_registration_after_freeze {α : Type} (r : Router α) (path : String)
    (rank : Int) (h : α) (r2 : Router α)
    (hreg : Handle r path rank (some h) = Except.ok r2) :
    lookupRank r2.trees rank
      = some ((lookupRank r.trees rank).getD [] ++
          [(patToks (fromNatsPath path).data,
            if r.saveMatchedRoutePath
            then StoredHandle.withMatchedPath (fromNatsPath path).data h
            else StoredHandle.plain h)])
    ∧ r2.rankIndexList = r.rankIndexList
    ∧ r2.inited = r.inited
    ∧ (r.inited = true → rank ∉ r.rankIndexList →
        ∀ (msg : SubjectMsg) (payload : Option Payload),
          ∀ t ∈ (dispatchAux r2 msg payload).spawned,
            t.rank ∈ r.rankIndexList ∧ t.rank ≠ rank) := by
  have main : lookupRank r2.trees rank
      = some ((lookupRank r.trees rank).getD [] ++
          [(patToks (fromNatsPath path).data,
            if r.saveMatchedRoutePath
            then StoredHandle.withMatchedPath (fromNatsPath path).data h
            else StoredHandle.plain h)])
      ∧ r2.rankIndexList = r.rankIndexList ∧ r2.inited = r.inited := by
    rw [Handle.eq_def] at hreg
    by_cases hbad : rank ≤ 0 ∨ rank > 255
    · rw [if_pos hbad] at hreg
      exact absurd hreg (by simp)
    · rw [if_neg hbad] at hreg
      cases hlr : lookupRank r.trees rank with
      | some old =>
        simp only [hlr, Except.ok.injEq] at hreg
        subst hreg
        refine ⟨?_, rfl, rfl⟩
        simp only [lookupRank_setRank_self, hlr, addRoute, Option.getD_some]
      | none =>
        simp only [hlr, lookupRank_setRank_self, Except.ok.injEq] at hreg
        subst hreg
        refine ⟨?_, rfl, rfl⟩
        simp only [lookupRank_setRank_self, hlr, addRoute, Option.getD_some,
          Option.getD_none, List.nil_append]
  refine ⟨main.1, main.2.1, main.2.2, ?_⟩
  intro hIn hNot msg payload t ht
  have h2i : r2.inited = true := by rw [main.2.2, hIn]
  have hmem := dispatch_spawn_rank_mem r2 msg payload h2i t ht
  rw [main.2.1] at hmem
  exact ⟨hmem, fun hc => hNot (hc ▸ hmem)⟩


/-- Witness for C1: the rank-precedence theorem applied to a router holding
overlapping routes for subject `a` in ranks 2 and 1 (registered in that
order): the single spawned task carries rank 1's handler. -/
theorem C1_rank_precedence_witness :
    ((c1router.inited = false) ∧ (c1router.rankIndexList = []) ∧
      2 ≤ ((c1router.trees.map (fun e => e.1)).filter
        (fun rk => rankMatches c1router.trees (SubjectMsg.mk "a").subject rk)).length)
    ∧ (ServeNATS c1router ⟨"a"⟩ = dispatchAux c1router ⟨"a"⟩ none
    ∧ (∀ pl : Payload, ServeNATSWithPayload c1router ⟨"a"⟩ pl = dispatchAux c1router ⟨"a"⟩ (some pl))
    ∧ (∀ (r2 : Router Nat) (m2 : SubjectMsg) (p2 : Option Payload),
        (dispatchAux r2 m2 p2).spawned.length ≤ 1)
    ∧ (dispatchAux c1router ⟨"a"⟩ none).result = Except.ok ()
    ∧ (dispatchAux c1router ⟨"a"⟩ none).router.inited = true
    ∧ (dispatchAux c1router ⟨"a"⟩ none).router.rankIndexList
        = List.insertionSort (· ≤ ·) (c1router.trees.map (fun e => e.1))
    ∧ getRankList (dispatchAux c1router ⟨"a"⟩ none).router
        = ((dispatchAux c1router ⟨"a"⟩ none).router.rankIndexList,
           (dispatchAux c1router ⟨"a"⟩ none).router)
    ∧ ∃ t : SpawnedTask Nat,
        (dispatchAux c1router ⟨"a"⟩ none).spawned = [t]
        ∧ t.msg = ⟨"a"⟩ ∧ t.payload = none
        ∧ rankMatches c1router.trees (SubjectMsg.mk "a").subject t.rank = true
        ∧ (∀ rk ∈ c1router.trees.map (fun e => e.1),
            rankMatches c1router.trees (SubjectMsg.mk "a").subject rk = true → t.rank ≤ rk)
        ∧ ∃ (root : Trie Nat) (ps : List Param),
            lookupRank c1router.trees t.rank = some root
            ∧ lookupTrie root (SubjectMsg.mk "a").subject = some (t.handle, ps)
            ∧ t.params = (if ps.isEmpty then none else some ps)) :=
  ⟨⟨rfl, rfl, by decide⟩,
   C1_rank_precedence c1router ⟨"a"⟩ none rfl rfl (by decide)⟩

/-- Witness for C5: registering `b` into the new rank 2 of an already-frozen
router whose cached list is `[1]`. -/
theorem C5_registration_after_freeze_witness :
    Handle c5base "b" 2 (some 5) = Except.ok c5after
    ∧ (lookupRank c5after.trees 2
        = some ((lookupRank c5base.trees 2).getD [] ++
            [(patToks (fromNatsPath "b").data,
              if c5base.saveMatchedRoutePath
              then StoredHandle.withMatchedPath (fromNatsPath "b").data 5
              else StoredHandle.plain 5)])
      ∧ c5after.rankIndexList = c5base.rankIndexList
      ∧ c5after.inited = c5base.inited
      ∧ (c5base.inited = true → (2 : Int) ∉ c5base.rankIndexList →
          ∀ (msg : SubjectMsg) (payload : Option Payload),
            ∀ t ∈ (dispatchAux c5after msg payload).spawned,
              t.rank ∈ c5base.rankIndexList ∧ t.rank ≠ 2)) :=
  ⟨by rfl, C5_registration_after_freeze c5base "b" 2 5 c5after (by rfl)⟩



/-- Witness for C10: the leading-star clause applied at counter 4 and the
concrete tail `.x`. -/
theorem C10_leading_star_witness :
    replTok 4 ('*' :: ['.', 'x']) = '*' :: replTok 4 ['.', 'x'] :=
  C10_leading_star.1 4 ['.', 'x']

end NatsRouter
